import Mathlib

/-!
Shallow embedding of the reconciliation core of the literaturcheck repository
(single source file literaturcheck_app.py) and proofs about its behaviour.

Conventions of the embedding:
- pure Python functions become Lean functions with the same names
  (umlauts transliterated where Lean identifiers do not allow them);
- network-backed metadata fetchers are parameters (oracles) of the functions
  that call them, since their bodies only do I/O;
- Python code that can raise is embedded with Option / Except;
- machine integers are Nat (all quantities here are small and non-negative);
- string similarity comes from the external fuzzywuzzy library, which is not
  part of the repository, so it is modelled from the specification text
  (see the doc comments of ratioL, fuzzTokenSortRatio and fuzzPartialRatio).
-/

set_option maxRecDepth 4000

/-- Rounding of num / den to the nearest natural number, halves to even,
as the Python round builtin computes on an exact rational value.
Requires den > 0 to be meaningful; den = 0 gives num / 0 = 0. -/
def intr (num den : Nat) : Nat :=
  let q := num / den
  let r := num % den
  if 2 * r < den then q
  else if den < 2 * r then q + 1
  else if q % 2 = 0 then q else q + 1

/-- Inner loop of one row update of the edit distance table: walks the rest of
the second string together with the tail of the previous row. left is the cell
just computed in the current row, pPrev is the previous row cell one column to
the left. Substitution costs 2, insertion and deletion cost 1. -/
def levStepGo (c : Char) : List Char → Nat → Nat → List Nat → List Nat
  | [], _, _, _ => []
  | bj :: bs, left, pPrev, prev =>
    match prev with
    | [] => []
    | pj :: rest =>
      let here := min (left + 1) (min (pj + 1) (pPrev + (if c == bj then 0 else 2)))
      here :: levStepGo c bs here pj rest

/-- Next row of the edit distance table for one character of the first string. -/
def levStep (c : Char) (b : List Char) (prev : List Nat) : List Nat :=
  match prev with
  | [] => []
  | p0 :: rest => (p0 + 1) :: levStepGo c b (p0 + 1) p0 rest

/-- Edit distance between two character lists with insertion and deletion cost 1
and substitution cost 2: the distance underlying the Levenshtein ratio. -/
def lev2 (a b : List Char) : Nat :=
  ((a.foldl (fun row c => levStep c b row) (List.range (b.length + 1))).getLast?).getD 0

/-- Modelled from the spec: the plain similarity ratio of the external
fuzzywuzzy library (fuzz.ratio), described in the spec as an
edit-distance-based ratio on a 0 to 100 scale. It is embedded as the
Levenshtein-backend formula round(100 * (lensum - dist) / lensum) with
dist the edit distance charging substitutions 2, rounding halves to even,
and the value 100 for two empty strings. Rounding is exact rational
rounding; the library rounds a floating point value, which agrees on all
inputs used in this development. -/
def ratioL (a b : List Char) : Nat :=
  let lensum := a.length + b.length
  if lensum = 0 then 100 else intr (100 * (lensum - lev2 a b)) lensum

/-- Python str.lower on one character, on the ASCII range used by this
program. -/
def pyLowerChar (c : Char) : Char :=
  if 'A' ≤ c ∧ c ≤ 'Z' then Char.ofNat (c.toNat + 32) else c

/-- Python str.lower, on the ASCII range used by this program. -/
def pyLower (s : String) : String := String.mk (s.data.map pyLowerChar)

/-- Python str.upper on one character, on the ASCII range used by this
program. -/
def pyUpperChar (c : Char) : Char :=
  if 'a' ≤ c ∧ c ≤ 'z' then Char.ofNat (c.toNat - 32) else c

/-- Python str.upper, on the ASCII range used by this program. -/
def pyUpper (s : String) : String := String.mk (s.data.map pyUpperChar)

/-- Word characters kept by the fuzzywuzzy full_process step (ASCII letters,
digits and the underscore; everything else becomes whitespace). -/
def isWordChar (c : Char) : Bool := c.isAlphanum || c == '_'

/-- Python str.strip restricted to the space character, which is the only
whitespace left after full processing. -/
def stripSpaces (l : List Char) : List Char :=
  ((l.dropWhile (· == ' ')).reverse.dropWhile (· == ' ')).reverse

/-- Modelled from the spec: the full_process canonicalization step of
fuzzywuzzy (lower-case, non-word characters replaced by whitespace,
stripped), matching the spec phrase lower-cased, whitespace-collapsed. -/
def fullProcessL (l : List Char) : List Char :=
  stripSpaces (l.map (fun c => if isWordChar c then pyLowerChar c else ' '))

/-- Split a character list into maximal runs of non-space characters,
as Python str.split() with no argument does after full processing. -/
def splitTokensGo : List Char → List Char → List (List Char)
  | [], acc => if acc.isEmpty then [] else [acc.reverse]
  | c :: cs, acc =>
    if c == ' ' then
      if acc.isEmpty then splitTokensGo cs [] else acc.reverse :: splitTokensGo cs []
    else splitTokensGo cs (c :: acc)

/-- Whitespace tokenization of a processed character list. -/
def splitTokens (l : List Char) : List (List Char) := splitTokensGo l []

/-- Lexicographic comparison of character lists by code point, the order
Python sorted uses on strings. -/
def listCharLe : List Char → List Char → Bool
  | [], _ => true
  | _ :: _, [] => false
  | a :: as, b :: bs =>
    if a.val < b.val then true else if b.val < a.val then false else listCharLe as bs

/-- Insertion step of a stable insertion sort on tokens. -/
def insertToken (t : List Char) : List (List Char) → List (List Char)
  | [] => [t]
  | u :: us => if listCharLe t u then t :: u :: us else u :: insertToken t us

/-- Stable sort of a token list in the order Python sorted produces. -/
def sortTokens (l : List (List Char)) : List (List Char) := l.foldr insertToken []

/-- Rejoin tokens with single spaces, as a whitespace join in Python. -/
def joinTokens : List (List Char) → List Char
  | [] => []
  | [t] => t
  | t :: u :: ts => t ++ ' ' :: joinTokens (u :: ts)

/-- Canonical form used by the token sort ratio: full process, tokenize,
sort tokens alphabetically, rejoin with spaces. -/
def processAndSort (s : String) : List Char :=
  joinTokens (sortTokens (splitTokens (fullProcessL s.data)))

/-- Modelled from the spec: fuzzywuzzy fuzz.token_sort_ratio, the
normalized token-sort similarity ratio of the spec: sort each canonicalized
string by whitespace-delimited tokens, rejoin, and take the edit-distance
based ratio of the two results. -/
def fuzzTokenSortRatio (s1 s2 : String) : Nat :=
  ratioL (processAndSort s1) (processAndSort s2)

/-- Modelled from the spec: fuzzywuzzy fuzz.partial_ratio, the partial
(substring-tolerant) similarity ratio used for matching a short name against
a longer one: the maximum plain ratio between the shorter string and any
contiguous window of the longer string of the same length as the shorter. -/
def fuzzPartialRatio (s1 s2 : String) : Nat :=
  let a := s1.data
  let b := s2.data
  let sh := if a.length ≤ b.length then a else b
  let lo := if a.length ≤ b.length then b else a
  (List.range (lo.length - sh.length + 1)).foldl
    (fun acc i => max acc (ratioL sh ((lo.drop i).take sh.length))) 0

/-- Characters kept by the re.sub character class [0-9Xx] used by the ISBN
cleaning steps. -/
def keepIsbnChar (c : Char) : Bool := c.isDigit || c == 'X' || c == 'x'

/-- Embeds re.sub with pattern [^0-9Xx] and empty replacement: drop every
character outside the class. -/
def cleanIsbn (s : String) : String := String.mk (s.data.filter keepIsbnChar)

/-- Python int() applied to a single character, as done digit by digit in
isbn10_to_isbn13; a non-digit raises ValueError, embedded as none. -/
def pyIntDigit (c : Char) : Option Nat :=
  if c.isDigit then some (c.toNat - '0'.toNat) else none

/-- The weighted total of isbn10_to_isbn13: enumerate the characters from
index i, weight 1 on even indices and 3 on odd ones, int() each character.
Fails (none) when any character is not a digit. -/
def weightedTotal : List Char → Nat → Option Nat
  | [], _ => some 0
  | c :: cs, i => do
    let d ← pyIntDigit c
    let rest ← weightedTotal cs (i + 1)
    pure (d * (if i % 2 = 0 then 1 else 3) + rest)

/-- Embeds isbn10_to_isbn13 (source lines 104 to 111): build the 12-digit body
978 plus the first nine characters of the input, compute the weighted check
digit, and append it. The Python code calls int() on every character of the
body, so a non-digit among the first nine characters raises ValueError,
embedded as none. -/
def isbn10_to_isbn13 (isbn10 : String) : Option String := do
  let body := "978" ++ String.mk isbn10.data.dropLast
  let total ← weightedTotal body.data 0
  let check := (10 - total % 10) % 10
  pure (body ++ toString check)

/-- Embeds normalize_isbn (source lines 98 to 102): strip every character
outside [0-9Xx]; if ten characters remain, convert to the ISBN-13 form
(which can raise, see isbn10_to_isbn13), else return the cleaned string. -/
def normalize_isbn (isbn : String) : Option String :=
  let isbn := cleanIsbn isbn
  if isbn.length = 10 then isbn10_to_isbn13 isbn else some isbn

/-- Python set.add on the list embedding of a set: append when not yet
present. The source builds the variant set by successive adds and returns
list(variants); the iteration order of a Python set is hash-dependent and
unspecified, the embedding fixes insertion order, and no claim below depends
on the order of the variants. -/
def setAdd (l : List String) (s : String) : List String :=
  if s ∈ l then l else l ++ [s]

/-- Embeds generate_isbn_variants (source lines 113 to 124): clean and
upper-case the input, keep it as a variant, add the ISBN-13 form when ten
characters remain (this step can raise, see isbn10_to_isbn13), and add the
core digits (drop the 978 and the check digit) when thirteen characters
remain and the value starts with 978. -/
def generate_isbn_variants (isbn : String) : Option (List String) :=
  let clean := pyUpper (cleanIsbn isbn)
  let variants := [clean]
  let step10 : Option (List String) :=
    if clean.length = 10 then
      match isbn10_to_isbn13 clean with
      | some v13 => some (setAdd variants v13)
      | none => none
    else some variants
  match step10 with
  | none => none
  | some vs =>
    some (if clean.length = 13 ∧ "978".data.isPrefixOf clean.data
          then setAdd vs (String.mk (clean.data.drop 3).dropLast)
          else vs)

/-- One parsed bibliography entry, the dict built by parse_einträge with keys
typ, id, autor, titel. -/
structure Eintrag where
  typ : String
  id : String
  autor : String
  titel : String
deriving Repr, DecidableEq

/-- One metadata record returned by a source adapter, the dict with keys
quelle, titel, autoren, and the optional isbn_variant tag added by
query_isbn_sources. -/
structure Metadata where
  quelle : String
  titel : String
  autoren : List String
  isbn_variant : Option String := none
deriving Repr, DecidableEq

/-- One comparison result, the dict returned by vergleiche with keys quelle,
titel_score, autor_match, autoren_api. -/
structure Vergleich where
  quelle : String
  titel_score : Nat
  autor_match : Bool
  autoren_api : List String
deriving Repr, DecidableEq

/-- Embeds vergleiche (source lines 387 to 413). Absent metadata gives the
fixed result with source keine and score 0. Otherwise the title score is the
token sort ratio of the lower-cased titles, the author score is the maximum
partial ratio of the lower-cased input author string against each candidate
author, autor_match holds at threshold 60, and the returned titel_score is
the combined score: title ratio plus a bonus of 15 when the author matched.
The full candidate author list is returned as autoren_api. -/
def vergleiche (eintrag : Eintrag) (metadata : Option Metadata) : Vergleich :=
  match metadata with
  | none => { quelle := "keine", titel_score := 0, autor_match := false, autoren_api := [] }
  | some md =>
    let titel_score := fuzzTokenSortRatio (pyLower eintrag.titel) (pyLower md.titel)
    let autor_score := md.autoren.foldl
      (fun acc a => max acc (fuzzPartialRatio (pyLower eintrag.autor) (pyLower a))) 0
    let autor_match := decide (60 ≤ autor_score)
    let combined_score := titel_score + (if autor_match then 15 else 0)
    { quelle := md.quelle, titel_score := combined_score,
      autor_match := autor_match, autoren_api := md.autoren }

/-- The argument dict passed to the DNB and ZDB wrappers by
query_isbn_sources: keys id, typ, titel, autor. -/
structure DnbEintrag where
  id : Option String
  typ : String
  titel : Option String
  autor : String
deriving Repr, DecidableEq

/-- Tagging md with the variant that produced it, the Python statement
md[isbn_variant] = variant. -/
def tagVariant (md : Metadata) (v : String) : Metadata :=
  { md with isbn_variant := some v }

/-- The records contributed by one adapter call on one variant: the tagged
record when the adapter returned one, nothing otherwise. -/
def hitList (f : String → Option Metadata) (v : String) : List Metadata :=
  match f v with
  | some md => [tagVariant md v]
  | none => []

/-- The records contributed by one un-tagged wrapper call. -/
def hitList0 (r : Option Metadata) : List Metadata :=
  match r with
  | some md => [md]
  | none => []

/-- Python truthiness of an optional string: None and the empty string are
falsy. -/
def optTruthy : Option String → Bool
  | none => false
  | some s => !(s == "")

/-- Embeds query_isbn_sources (source lines 208 to 256), with the
network-backed fetchers googlebooks, openlibrary, worldcat (keyed by one
identifier variant) and the DNB and ZDB wrappers (keyed by an entry dict)
passed as oracle parameters. For every variant it queries Google Books then
OpenLibrary, and WorldCat when langsame holds; when langsame holds it then
queries the DNB and ZDB wrappers with an isbn-typed entry; finally, when no
record was collected, a title is available (truthy) and langsame holds, it
queries the wrappers with a titel-typed entry. Records from the variant loop
are tagged with their variant. Variant generation can raise, propagated as
none. -/
def query_isbn_sources
    (googlebooks openlibrary worldcat : String → Option Metadata)
    (dnb zdb : DnbEintrag → Option Metadata)
    (isbn : String) (titel : Option String) (langsame : Bool) :
    Option (List Metadata) :=
  match generate_isbn_variants isbn with
  | none => none
  | some variants =>
    let results := variants.foldl
      (fun acc v =>
        acc ++ hitList googlebooks v ++ hitList openlibrary v
            ++ (if langsame then hitList worldcat v else [])) []
    let results := results ++
      (if langsame then
        hitList0 (dnb { id := some isbn, typ := "isbn", titel := titel, autor := "" }) ++
        hitList0 (zdb { id := some isbn, typ := "isbn", titel := titel, autor := "" })
      else [])
    let results :=
      if results.isEmpty ∧ optTruthy titel ∧ langsame then
        results ++
        hitList0 (dnb { id := none, typ := "titel", titel := titel, autor := "" }) ++
        hitList0 (zdb { id := none, typ := "titel", titel := titel, autor := "" })
      else results
    some results

/-- Embeds the isbn branch of fetch_all_metadata (source lines 367 to 370):
one vergleiche call per record returned by query_isbn_sources. The other
branch of fetch_all_metadata drives the DOI fetchers through a thread pool
and collects completions in a nondeterministic order; it is outside this
embedding, and no claim below is settled on it. -/
def fetch_all_metadata_isbn
    (googlebooks openlibrary worldcat : String → Option Metadata)
    (dnb zdb : DnbEintrag → Option Metadata)
    (eintrag : Eintrag) (langsame : Bool) : Option (List Vergleich) :=
  (query_isbn_sources googlebooks openlibrary worldcat dnb zdb
      eintrag.id (some eintrag.titel) langsame).map
    (List.map (fun md => vergleiche eintrag (some md)))

/-- Embeds the Python expression max(res_list, key=lambda r: r[titel_score])
used by überprüfe (source line 442): the builtin max walks the list and
replaces the current best only when a later key is strictly greater, so ties
keep the earliest element; an empty list raises, embedded as none. -/
def pyMaxByScore (l : List Vergleich) : Option Vergleich :=
  match l with
  | [] => none
  | hd :: tl =>
    some (tl.foldl (fun acc r => if acc.titel_score < r.titel_score then r else acc) hd)

/-- One row of the result table built by überprüfe. -/
structure Zeile where
  titelInput : String
  autorInput : String
  id : String
  quelle : String
  titelScore : Nat
  autorGefunden : String
  autorenApi : String
deriving Repr, DecidableEq

/-- Embeds the per-entry result row construction of überprüfe (source lines
441 to 461): when the comparison list is non-empty the row reports the best
comparison by pyMaxByScore, else the fixed keine row with score 0. -/
def besteZeile (eintrag : Eintrag) (res_list : List Vergleich) : Zeile :=
  match pyMaxByScore res_list with
  | some best =>
    { titelInput := eintrag.titel, autorInput := eintrag.autor, id := eintrag.id,
      quelle := best.quelle, titelScore := best.titel_score,
      autorGefunden := if best.autor_match then "Ja" else "Nein",
      autorenApi := String.intercalate ", " best.autoren_api }
  | none =>
    { titelInput := eintrag.titel, autorInput := eintrag.autor, id := eintrag.id,
      quelle := "keine", titelScore := 0, autorGefunden := "Nein", autorenApi := "" }

/-- Embeds highlight_rows (source lines 420 to 426): green when the title
score is at least 85 and the author was found, else yellow when the title
score is at least 70 or the author was found, else red. -/
def highlight_rows (row : Zeile) : String :=
  if 85 ≤ row.titelScore ∧ row.autorGefunden = "Ja" then "background-color: #c8e6c9"
  else if 70 ≤ row.titelScore ∨ row.autorGefunden = "Ja" then "background-color: #fff9c4"
  else "background-color: #ffcdd2"

/-- The categorical verdict of the spec. -/
inductive Status where
  | Match
  | PartialMatch
  | NoMatch
deriving Repr, DecidableEq

/-- The reading of the row colors as statuses fixed by the spec: green is
Match, yellow is PartialMatch, red is NoMatch. -/
def colorToStatus (c : String) : Status :=
  if c = "background-color: #c8e6c9" then Status.Match
  else if c = "background-color: #fff9c4" then Status.PartialMatch
  else Status.NoMatch

/-- Follows the words of claim C2: Match when the score is at least 85 and
the author matched, PartialMatch when exactly one of the two holds, NoMatch
otherwise. Stated for comparison with the code classifier. -/
def claimedStatus (score : Nat) (am : Bool) : Status :=
  if 85 ≤ score ∧ am = true then Status.Match
  else if (decide (85 ≤ score)) ≠ am then Status.PartialMatch
  else Status.NoMatch

/-- The status rule the code actually implements, read off highlight_rows:
Match when the score is at least 85 and the author was found, else
PartialMatch when the score is at least 70 or the author was found, else
NoMatch. -/
def amendedStatus (score : Nat) (am : Bool) : Status :=
  if 85 ≤ score ∧ am = true then Status.Match
  else if 70 ≤ score ∨ am = true then Status.PartialMatch
  else Status.NoMatch

/-- Names defined at module level of literaturcheck_app.py: the imported
names and the module functions, in source order. -/
def moduleGlobalNames : List String :=
  ["st", "re", "requests", "fuzz", "Document", "etree", "pd",
   "ThreadPoolExecutor", "as_completed", "lade_datei", "parse_einträge",
   "normalize_isbn", "isbn10_to_isbn13", "generate_isbn_variants",
   "get_metadata_crossref", "get_metadata_doi_rest", "get_metadata_openlibrary",
   "get_metadata_googlebooks", "get_metadata_worldcat_sru", "query_isbn_sources",
   "parse_marcxml_records", "query_dnb", "query_zdb", "get_metadata_dnb",
   "get_metadata_zdb", "fetch_all_metadata", "vergleiche", "highlight_rows",
   "überprüfe", "main"]

/-- Python builtin names the module references; none of them is named
lines. -/
def pythonBuiltinNames : List String :=
  ["int", "str", "len", "list", "set", "max", "min", "enumerate", "range",
   "print", "sorted", "sum", "dict", "float", "bool", "open"]

/-- Local names of parse_einträge that are bound when its for-loop header is
evaluated: the parameter zeilen and the accumulator einträge assigned on the
first line of the body. -/
def parseEintraegeLocals : List String := ["zeilen", "einträge"]

/-- The name the for-loop of parse_einträge iterates over, source line 30:
the loop reads for zeile in lines, not the parameter zeilen. -/
def parseEintraegeLoopName : String := "lines"

/-- Python name resolution inside the body of parse_einträge: a name
evaluates without error exactly when it is bound in the local scope, the
module globals or the builtins; otherwise evaluating it raises NameError. -/
def resolvesInParseEintraege (n : String) : Bool :=
  n ∈ parseEintraegeLocals || n ∈ moduleGlobalNames || n ∈ pythonBuiltinNames

/-- Embeds parse_einträge (source lines 27 to 90) far enough to settle claim
C10: the first evaluation step of its loop is the lookup of the name lines,
which is bound in no scope, so the call raises NameError before any
iteration runs and before any entry is produced. The loop body itself is
unreachable (the lookup provably fails, see the C10 theorem) and the ok
branch is therefore never selected. -/
def parse_eintraege (zeilen : List String) : Except String (List Eintrag) :=
  if resolvesInParseEintraege parseEintraegeLoopName then
    Except.ok []
  else
    Except.error "NameError"


/-- Helper: the Python rounding of num / den never exceeds 100 when
num is at most 100 * den. -/
theorem intr_le_100 (num den : Nat) (hden : 0 < den) (h : num ≤ 100 * den) :
    intr num den ≤ 100 := by
  have h1 : den * (num / den) + num % den = num := Nat.div_add_mod num den
  have h2 : num % den < den := Nat.mod_lt _ hden
  have hq : num / den ≤ 100 := by
    have hmul : num / den * den ≤ 100 * den :=
      le_trans (Nat.div_mul_le_self num den) h
    exact Nat.le_of_mul_le_mul_right hmul hden
  unfold intr
  dsimp only
  split_ifs with hc1 hc2 hc3
  · exact hq
  · rcases Nat.lt_or_ge (num / den) 100 with hlt | hge
    · omega
    · have hq100 : num / den = 100 := le_antisymm hq hge
      rw [hq100] at h1
      omega
  · exact hq
  · rcases Nat.lt_or_ge (num / den) 100 with hlt | hge
    · omega
    · have hq100 : num / den = 100 := le_antisymm hq hge
      rw [hq100] at h1
      omega

/-- Helper: the modelled fuzzywuzzy ratio is bounded by 100. -/
theorem ratioL_le_100 (a b : List Char) : ratioL a b ≤ 100 := by
  unfold ratioL
  dsimp only
  split_ifs with h
  · exact le_refl 100
  · apply intr_le_100
    · omega
    · have hsub : a.length + b.length - lev2 a b ≤ a.length + b.length := Nat.sub_le _ _
      omega

/-- Helper: a maximum accumulated by foldl reaches a threshold exactly when
the seed does or some mapped element does. -/
theorem foldl_max_ge_iff (f : String → Nat) (k : Nat) :
    ∀ (l : List String) (init : Nat),
      (k ≤ l.foldl (fun acc a => max acc (f a)) init) ↔ (k ≤ init ∨ ∃ a ∈ l, k ≤ f a) := by
  intro l
  induction l with
  | nil => intro init; simp
  | cons x xs ih =>
    intro init
    simp only [List.foldl_cons]
    rw [ih]
    constructor
    · rintro (h | h)
      · rcases le_max_iff.mp h with h' | h'
        · exact Or.inl h'
        · exact Or.inr ⟨x, by simp, h'⟩
      · rcases h with ⟨a, ha, hfa⟩
        exact Or.inr ⟨a, by simp [ha], hfa⟩
    · rintro (h | ⟨a, ha, hfa⟩)
      · exact Or.inl (le_max_iff.mpr (Or.inl h))
      · rcases List.mem_cons.mp ha with rfl | ha'
        · exact Or.inl (le_max_iff.mpr (Or.inr hfa))
        · exact Or.inr ⟨a, ha', hfa⟩

/-- Helper: reading the green highlight color as a status. -/
theorem colorGreen : colorToStatus "background-color: #c8e6c9" = Status.Match := by decide

/-- Helper: reading the yellow highlight color as a status. -/
theorem colorYellow : colorToStatus "background-color: #fff9c4" = Status.PartialMatch := by decide

/-- Helper: reading the red highlight color as a status. -/
theorem colorRed : colorToStatus "background-color: #ffcdd2" = Status.NoMatch := by decide

/-- Helper: the weighted total succeeds on an all-digit character list. -/
theorem weightedTotal_isSome (l : List Char) :
    ∀ i, (∀ c ∈ l, c.isDigit = true) → ∃ t, weightedTotal l i = some t := by
  induction l with
  | nil => intro i _; exact ⟨0, rfl⟩
  | cons c cs ih =>
    intro i h
    have hc : c.isDigit = true := h c (by simp)
    obtain ⟨t, ht⟩ := ih (i + 1) (fun x hx => h x (by simp [hx]))
    refine ⟨(c.toNat - '0'.toNat) * (if i % 2 = 0 then 1 else 3) + t, ?_⟩
    simp [weightedTotal, pyIntDigit, hc, ht]

/-- Helper: a successful weighted total certifies that every character was a
digit. -/
theorem weightedTotal_digits :
    ∀ (l : List Char) (i t : Nat), weightedTotal l i = some t →
      ∀ c ∈ l, c.isDigit = true := by
  intro l
  induction l with
  | nil => intro i t _ c hc; simp at hc
  | cons x xs ih =>
    intro i t h c hc
    unfold weightedTotal at h
    cases hx : pyIntDigit x with
    | none => rw [hx] at h; simp at h
    | some d =>
      rw [hx] at h
      cases hrest : weightedTotal xs (i + 1) with
      | none => rw [hrest] at h; simp at h
      | some t2 =>
        rcases List.mem_cons.mp hc with rfl | hc2
        · unfold pyIntDigit at hx
          split at hx
          · assumption
          · simp at hx
        · exact ih (i + 1) t2 hrest c hc2

/-- Helper: the decimal string of a digit value consists of digit
characters. -/
theorem toString_digit (n : Nat) (h : n < 10) :
    ∀ c ∈ (toString n).data, c.isDigit = true := by
  interval_cases n <;> decide

/-- Helper: the decimal string of a digit value has one character. -/
theorem toString_len_one (n : Nat) (h : n < 10) : (toString n).data.length = 1 := by
  interval_cases n <;> decide

/-- Helper: accumulating appends over a list with foldl is appending the
concatenation of the pieces. -/
theorem foldl_append_bind (g : String → List Metadata) :
    ∀ (l : List String) (acc : List Metadata),
      l.foldl (fun a v => a ++ g v) acc = acc ++ l.flatMap g := by
  intro l
  induction l with
  | nil => intro acc; simp
  | cons x xs ih => intro acc; simp [ih, List.append_assoc]

/-- C1 counterexample: on the exact-match scenario of the claim, with entry
title Sample Title and author Smith and an identical returned record, the
token-sort ratio of the lower-cased titles is 100, yet the titel_score that
vergleiche returns is 115, because the code adds a bonus of 15 to the title
ratio when the author matches. The returned value is therefore neither equal
to the ratio nor within 0 to 100, refuting the claim at this input. -/
theorem C1_counterexample :
    (vergleiche { typ := "isbn", id := "123", autor := "Smith", titel := "Sample Title" }
       (some { quelle := "TestQuelle", titel := "Sample Title", autoren := ["Smith"] })).titel_score
      = 115 ∧
    fuzzTokenSortRatio (pyLower "Sample Title") (pyLower "Sample Title") = 100 := by
  constructor <;> decide

/-- C1 as amended: for every entry and every present record, the returned
titel_score is the token-sort ratio of the lower-cased titles plus a bonus
of 15 exactly when the author matched, hence an integer between 0 and 115;
on the exact-match sample the result is source TestQuelle, titel_score 115,
autor_match true. -/
theorem C1_main :
    (∀ (e : Eintrag) (md : Metadata),
      (vergleiche e (some md)).titel_score =
        fuzzTokenSortRatio (pyLower e.titel) (pyLower md.titel) +
          (if (vergleiche e (some md)).autor_match then 15 else 0)) ∧
    (∀ (e : Eintrag) (md : Metadata), (vergleiche e (some md)).titel_score ≤ 115) ∧
    vergleiche { typ := "isbn", id := "123", autor := "Smith", titel := "Sample Title" }
      (some { quelle := "TestQuelle", titel := "Sample Title", autoren := ["Smith"] }) =
      { quelle := "TestQuelle", titel_score := 115, autor_match := true,
        autoren_api := ["Smith"] } := by
  refine ⟨fun e md => rfl, fun e md => ?_, by decide⟩
  have h := ratioL_le_100 (processAndSort (pyLower e.titel)) (processAndSort (pyLower md.titel))
  simp only [vergleiche, fuzzTokenSortRatio]
  split_ifs <;> omega

/-- C2 counterexample: a best comparison with title score 75 and no author
match is colored yellow by highlight_rows, the PartialMatch color, although
the claim (at least 85 XOR author match, here neither) demands NoMatch. -/
theorem C2_counterexample :
    colorToStatus (highlight_rows
      { titelInput := "t", autorInput := "a", id := "i", quelle := "QuelleX",
        titelScore := 75, autorGefunden := "Nein", autorenApi := "" }) =
      Status.PartialMatch ∧
    claimedStatus 75 false = Status.NoMatch := by
  constructor <;> decide

/-- C2 as amended: the status the code reports through its row colors is
Match exactly when the best title score is at least 85 and the author was
found, PartialMatch exactly when that fails but the title score is at least
70 or the author was found, and NoMatch otherwise: the middle band uses a
separate threshold of 70 with a plain disjunction, not an XOR at 85. -/
theorem C2_main :
    ∀ row : Zeile, colorToStatus (highlight_rows row) =
      amendedStatus row.titelScore (decide (row.autorGefunden = "Ja")) := by
  intro row
  unfold highlight_rows amendedStatus
  by_cases hJ : row.autorGefunden = "Ja" <;>
    by_cases h85 : 85 ≤ row.titelScore <;>
      by_cases h70 : 70 ≤ row.titelScore <;>
        simp [hJ, h85, h70, colorGreen, colorYellow, colorRed]

/-- C3 counterexample: for the entry author abcde and candidate authors
abcxy and zzzzz, every pair has partial ratio below 75 (they are 60 and 0),
yet vergleiche reports autor_match true, because the code threshold is 60,
and it reports both candidate authors in autoren_api, not only those that
cleared a threshold. -/
theorem C3_counterexample :
    (vergleiche { typ := "isbn", id := "1", autor := "abcde", titel := "Ein Titel" }
       (some { quelle := "QuelleX", titel := "Ein Titel", autoren := ["abcxy", "zzzzz"] })).autor_match
      = true ∧
    (∀ a ∈ ["abcxy", "zzzzz"], fuzzPartialRatio (pyLower "abcde") (pyLower a) < 75) ∧
    (vergleiche { typ := "isbn", id := "1", autor := "abcde", titel := "Ein Titel" }
       (some { quelle := "QuelleX", titel := "Ein Titel", autoren := ["abcxy", "zzzzz"] })).autoren_api
      = ["abcxy", "zzzzz"] := by
  refine ⟨by decide, by decide, by decide⟩

/-- C3 as amended: autor_match is true exactly when some candidate author
has partial ratio at least 60 against the lower-cased joined input author
string (the entry carries one author string, not a list, so the pairing is
against that single string), and autoren_api is always the full candidate
author list, unfiltered. -/
theorem C3_main :
    (∀ (e : Eintrag) (md : Metadata),
      ((vergleiche e (some md)).autor_match = true ↔
        ∃ a ∈ md.autoren, 60 ≤ fuzzPartialRatio (pyLower e.autor) (pyLower a))) ∧
    (∀ (e : Eintrag) (md : Metadata),
      (vergleiche e (some md)).autoren_api = md.autoren) := by
  constructor
  · intro e md
    simp only [vergleiche, decide_eq_true_eq]
    rw [foldl_max_ge_iff]
    simp
  · intro e md
    rfl

/-- C4 counterexample: for the ISBN 3796519144, whose variant set has the
ten-digit and the thirteen-digit form, an adapter that answers on every
variant (here Google Books) contributes one record per variant: the returned
sequence holds two records with the same source name, so retrieval does not
keep at most one record per source. -/
theorem C4_counterexample :
    query_isbn_sources
      (fun _ => some { quelle := "Google Books", titel := "Ein Titel", autoren := [] })
      (fun _ => none) (fun _ => none) (fun _ => none) (fun _ => none)
      "3796519144" none false =
    some [{ quelle := "Google Books", titel := "Ein Titel", autoren := [],
            isbn_variant := some "3796519144" },
          { quelle := "Google Books", titel := "Ein Titel", autoren := [],
            isbn_variant := some "9783796519147" }] := by
  decide

/-- C4 as amended: retrieval performs no per-source deduplication; with slow
sources disabled the returned sequence is exactly the concatenation, in
variant order, of the tagged hits of Google Books and OpenLibrary on each
variant, so one source contributes one record per variant that hits. -/
theorem C4_main
    (gb ol wc : String → Option Metadata) (dnb zdb : DnbEintrag → Option Metadata)
    (isbn : String) (titel : Option String) :
    query_isbn_sources gb ol wc dnb zdb isbn titel false =
      (generate_isbn_variants isbn).map
        (fun vs => vs.flatMap (fun v => hitList gb v ++ hitList ol v)) := by
  unfold query_isbn_sources
  cases generate_isbn_variants isbn with
  | none => rfl
  | some vs =>
    simp only [Option.map_some']
    simp only [Bool.false_eq_true, if_false, List.append_nil, and_false, List.isEmpty_iff]
    rw [show (fun (acc : List Metadata) (v : String) => acc ++ hitList gb v ++ hitList ol v)
          = (fun acc v => acc ++ (hitList gb v ++ hitList ol v)) by
        funext acc v; rw [List.append_assoc]]
    rw [foldl_append_bind]
    simp

/-- C5 counterexample: for an ISBN entry whose two variants are attempted
against both fast adapters and every adapter yields no record, the ISBN
branch of fetch_all_metadata returns the empty comparison list: no
ComparisonResult with score 0 is produced for any attempted pair. -/
theorem C5_counterexample :
    fetch_all_metadata_isbn (fun _ => none) (fun _ => none) (fun _ => none)
      (fun _ => none) (fun _ => none)
      { typ := "isbn", id := "1234567890", autor := "Autor", titel := "Ein Titel" } false =
      some [] ∧
    generate_isbn_variants "1234567890" = some ["1234567890", "9781234567897"] := by
  constructor <;> decide

/-- C5 as amended: on the ISBN path the code produces exactly one
ComparisonResult per retrieved record (the comparison list has the length of
the record list), and an attempted pair that yields no record produces no
comparison at all; an entry whose retrieval is empty surfaces downstream as
the fixed keine row with score 0 and no author. -/
theorem C5_main :
    (∀ (gb ol wc : String → Option Metadata) (dnb zdb : DnbEintrag → Option Metadata)
       (e : Eintrag) (langsame : Bool),
      (fetch_all_metadata_isbn gb ol wc dnb zdb e langsame).map List.length =
        (query_isbn_sources gb ol wc dnb zdb e.id (some e.titel) langsame).map List.length) ∧
    (∀ e : Eintrag, besteZeile e [] =
      { titelInput := e.titel, autorInput := e.autor, id := e.id, quelle := "keine",
        titelScore := 0, autorGefunden := "Nein", autorenApi := "" }) := by
  constructor
  · intro gb ol wc dnb zdb e langsame
    unfold fetch_all_metadata_isbn
    cases query_isbn_sources gb ol wc dnb zdb e.id (some e.titel) langsame <;> simp
  · intro e
    rfl

/-- C6 counterexample: on two comparisons that tie at title score 90 while
only the second has autor_match true, the code best-pick returns the first,
with autor_match false, although descending lexicographic order on the pair
(titel_score, autor_match) would select the second: the code orders by
titel_score alone. -/
theorem C6_counterexample :
    pyMaxByScore
      [{ quelle := "QuelleA", titel_score := 90, autor_match := false, autoren_api := [] },
       { quelle := "QuelleB", titel_score := 90, autor_match := true, autoren_api := ["Autor"] }] =
    some { quelle := "QuelleA", titel_score := 90, autor_match := false, autoren_api := [] } := by
  decide

/-- C6 as amended: on a non-empty comparison list the code selects the first
comparison attaining the maximal titel_score, ignoring autor_match: the
selected element belongs to the list, its titel_score bounds every other,
and everything strictly before it in the list has a strictly smaller
titel_score. -/
theorem C6_main :
    ∀ (hd : Vergleich) (tl : List Vergleich), ∃ b,
      pyMaxByScore (hd :: tl) = some b ∧
      (∀ r ∈ hd :: tl, r.titel_score ≤ b.titel_score) ∧
      ∃ l₁ l₂, hd :: tl = l₁ ++ b :: l₂ ∧ ∀ r ∈ l₁, r.titel_score < b.titel_score := by
  intro hd tl
  induction tl generalizing hd with
  | nil =>
    exact ⟨hd, rfl, by simp, [], [], by simp, by simp⟩
  | cons r rest ih =>
    by_cases h : hd.titel_score < r.titel_score
    · obtain ⟨b, hb, hbound, l₁, l₂, hdec, hstrict⟩ := ih r
      refine ⟨b, ?_, ?_, hd :: l₁, l₂, ?_, ?_⟩
      · simp only [pyMaxByScore, List.foldl_cons] at hb ⊢
        rw [if_pos h]
        exact hb
      · intro x hx
        rcases List.mem_cons.mp hx with rfl | hx'
        · have hr : r.titel_score ≤ b.titel_score := hbound r (by simp)
          omega
        · exact hbound x hx'
      · simp [hdec]
      · intro x hx
        rcases List.mem_cons.mp hx with rfl | hx'
        · have hr : r.titel_score ≤ b.titel_score := hbound r (by simp)
          omega
        · exact hstrict x hx'
    · obtain ⟨b, hb, hbound, l₁, l₂, hdec, hstrict⟩ := ih hd
      refine ⟨b, ?_, ?_, ?_⟩
      · simp only [pyMaxByScore, List.foldl_cons] at hb ⊢
        rw [if_neg h]
        exact hb
      · intro x hx
        rcases List.mem_cons.mp hx with rfl | hx'
        · exact hbound x (by simp)
        · rcases List.mem_cons.mp hx' with rfl | hx''
          · have hhd : hd.titel_score ≤ b.titel_score := hbound hd (by simp)
            omega
          · exact hbound x (by simp [hx''])
      · cases l₁ with
        | nil =>
          have hb' : hd = b ∧ rest = l₂ := by simpa using hdec
          obtain ⟨rfl, rfl⟩ := hb'
          exact ⟨[], r :: rest, rfl, by simp⟩
        | cons y l₁' =>
          have hinj : hd = y ∧ rest = l₁' ++ b :: l₂ := by
            simpa using hdec
          obtain ⟨hy, hrest⟩ := hinj
          have hhdlt : hd.titel_score < b.titel_score := by
            rw [hy]; exact hstrict y (by simp)
          refine ⟨hd :: r :: l₁', l₂, by simp [hrest], ?_⟩
          intro x hx
          rcases List.mem_cons.mp hx with rfl | hx'
          · exact hhdlt
          · rcases List.mem_cons.mp hx' with rfl | hx''
            · omega
            · exact hstrict x (by simp [hx''])

/-- C7 counterexample: the input 12345678X9 consists only of characters of
the class [0-9Xx], yet variant generation raises (returns none): its cleaned
form has length ten, so the code builds the ISBN-13 body from the first nine
characters and calls int() on each, and the X among them raises ValueError.
The claim that generation never raises on inputs over this class is false. -/
theorem C7_counterexample :
    generate_isbn_variants "12345678X9" = none ∧
    ∀ c ∈ "12345678X9".data, keepIsbnChar c = true := by
  constructor <;> decide

/-- C7 as amended: variant generation succeeds whenever the cleaned,
upper-cased value does not have length ten, or has only digits among its
first nine characters; and a cleaned value of wrong length (neither the
ten-character conversion case nor the thirteen-character 978 case) is
returned unchanged as the sole variant. Only a length-ten cleaned value with
an X among its first nine characters raises. -/
theorem C7_main :
    ∀ s : String,
      ((pyUpper (cleanIsbn s)).length ≠ 10 ∨
        ∀ c ∈ (pyUpper (cleanIsbn s)).data.take 9, c.isDigit = true) →
      (∃ l, generate_isbn_variants s = some l) ∧
      ((pyUpper (cleanIsbn s)).length ≠ 10 →
        ¬((pyUpper (cleanIsbn s)).length = 13 ∧
            "978".data.isPrefixOf (pyUpper (cleanIsbn s)).data) →
        generate_isbn_variants s = some [pyUpper (cleanIsbn s)]) := by
  intro s hs
  unfold generate_isbn_variants
  dsimp only
  by_cases h10 : (pyUpper (cleanIsbn s)).length = 10
  · have hdig : ∀ c ∈ (pyUpper (cleanIsbn s)).data.take 9, c.isDigit = true := by
      rcases hs with h | h
      · exact absurd h10 h
      · exact h
    have hlen : (pyUpper (cleanIsbn s)).data.length = 10 := h10
    have hbody : ∀ c ∈ ("978" ++ String.mk (pyUpper (cleanIsbn s)).data.dropLast).data,
        c.isDigit = true := by
      intro c hc
      rw [String.data_append] at hc
      rcases List.mem_append.mp hc with hc' | hc'
      · have h978 : ("978" : String).data = ['9', '7', '8'] := rfl
        rw [h978] at hc'
        rcases List.mem_cons.mp hc' with rfl | hc2
        · decide
        rcases List.mem_cons.mp hc2 with rfl | hc3
        · decide
        rcases List.mem_cons.mp hc3 with rfl | hc4
        · decide
        · simp at hc4
      · apply hdig
        have hdt : (pyUpper (cleanIsbn s)).data.dropLast =
            (pyUpper (cleanIsbn s)).data.take 9 := by
          rw [List.dropLast_eq_take, hlen]
        rwa [hdt] at hc'
    obtain ⟨t, ht⟩ := weightedTotal_isSome _ 0 hbody
    have h13 : isbn10_to_isbn13 (pyUpper (cleanIsbn s)) =
        some (("978" ++ String.mk (pyUpper (cleanIsbn s)).data.dropLast) ++
          toString ((10 - t % 10) % 10)) := by
      unfold isbn10_to_isbn13
      dsimp only
      rw [ht]
      rfl
    constructor
    · rw [if_pos h10, h13]
      exact ⟨_, rfl⟩
    · intro h
      exact absurd h10 h
  · constructor
    · rw [if_neg h10]
      exact ⟨_, rfl⟩
    · intro _ hnot
      rw [if_neg h10]
      dsimp only
      rw [if_neg hnot]

/-- C7 witness: a nine-digit cleaned value is malformed (wrong length) and
variant generation returns it unchanged as the sole variant without
raising. -/
theorem C7_witness :
    generate_isbn_variants "1-2345-6789" = some ["123456789"] :=
  (C7_main "1-2345-6789" (Or.inl (by decide))).2 (by decide) (by decide)

/-- A DNB wrapper oracle that answers exactly the title-typed query, used to
exhibit when the title fallback does and does not run. -/
def dnbTitelOracle : DnbEintrag → Option Metadata :=
  fun e =>
    if e.typ == "titel"
    then some { quelle := "DNB", titel := "Ein Titel", autoren := ["Autor"] }
    else none

/-- C8 counterexample: for an ISBN entry whose fan-out yields zero records
although a title is available and a title-search adapter (DNB) would answer
the title query, retrieval with slow sources disabled returns the empty
sequence without any title fallback: the fallback is guarded by the slow
sources flag, not only by emptiness and title availability. -/
theorem C8_counterexample :
    query_isbn_sources (fun _ => none) (fun _ => none) (fun _ => none)
      dnbTitelOracle (fun _ => none) "1234567890" (some "Ein Titel") false = some [] ∧
    dnbTitelOracle { id := none, typ := "titel", titel := some "Ein Titel", autor := "" } =
      some { quelle := "DNB", titel := "Ein Titel", autoren := ["Autor"] } := by
  constructor <;> decide

/-- C8 as amended: the title fallback runs only when slow sources are
enabled. With the flag off, retrieval is independent of the WorldCat, DNB
and ZDB adapters (so no title query is ever issued); with the flag on and an
empty fan-out and an available title, the title query against the
title-capable adapters supplies the result. -/
theorem C8_main :
    (∀ (gb ol wc wc2 : String → Option Metadata)
       (dnb dnb2 zdb zdb2 : DnbEintrag → Option Metadata)
       (isbn : String) (titel : Option String),
      query_isbn_sources gb ol wc dnb zdb isbn titel false =
        query_isbn_sources gb ol wc2 dnb2 zdb2 isbn titel false) ∧
    query_isbn_sources (fun _ => none) (fun _ => none) (fun _ => none)
      dnbTitelOracle (fun _ => none) "1234567890" (some "Ein Titel") true =
      some [{ quelle := "DNB", titel := "Ein Titel", autoren := ["Autor"] }] := by
  constructor
  · intro gb ol wc wc2 dnb dnb2 zdb zdb2 isbn titel
    unfold query_isbn_sources
    cases generate_isbn_variants isbn <;> simp
  · decide

/-- Helper: cleaning leaves a string of in-class characters unchanged. -/
theorem cleanIsbn_eq_self (s : String) (h : ∀ c ∈ s.data, keepIsbnChar c = true) :
    cleanIsbn s = s := by
  cases s with
  | mk d =>
    unfold cleanIsbn
    rw [List.filter_eq_self.mpr h]

/-- C9: ISBN normalization is idempotent on its results: whenever
normalize_isbn x succeeds with the canonical value y, normalizing y succeeds
and reproduces y. A ten-character cleaned input is rewritten to an all-digit
thirteen-character string which the cleaning step and the length test leave
unchanged; any other input is returned cleaned, and cleaning is
idempotent. -/
theorem C9_main :
    ∀ x y : String, normalize_isbn x = some y → normalize_isbn y = some y := by
  intro x y hxy
  unfold normalize_isbn at hxy
  dsimp only at hxy
  by_cases h10 : (cleanIsbn x).length = 10
  · rw [if_pos h10] at hxy
    have hlen : (cleanIsbn x).data.length = 10 := h10
    unfold isbn10_to_isbn13 at hxy
    dsimp only at hxy
    cases hw : weightedTotal ("978" ++ String.mk (cleanIsbn x).data.dropLast).data 0 with
    | none => rw [hw] at hxy; simp at hxy
    | some t =>
      rw [hw] at hxy
      simp at hxy
      subst hxy
      have hbodydig : ∀ c ∈ ("978" ++ String.mk (cleanIsbn x).data.dropLast).data,
          c.isDigit = true := weightedTotal_digits _ 0 t hw
      have hcheck : (10 - t % 10) % 10 < 10 := Nat.mod_lt _ (by omega)
      have halldig : ∀ c ∈ (("978" ++ String.mk (cleanIsbn x).data.dropLast) ++
          toString ((10 - t % 10) % 10)).data, c.isDigit = true := by
        intro c hc
        rw [String.data_append] at hc
        rcases List.mem_append.mp hc with hc' | hc'
        · exact hbodydig c hc'
        · exact toString_digit _ hcheck c hc'
      have hkeep : ∀ c ∈ (("978" ++ String.mk (cleanIsbn x).data.dropLast) ++
          toString ((10 - t % 10) % 10)).data, keepIsbnChar c = true := by
        intro c hc
        have := halldig c hc
        simp [keepIsbnChar, this]
      have hcleanfix : cleanIsbn (("978" ++ String.mk (cleanIsbn x).data.dropLast) ++
          toString ((10 - t % 10) % 10)) =
          ("978" ++ String.mk (cleanIsbn x).data.dropLast) ++
          toString ((10 - t % 10) % 10) := cleanIsbn_eq_self _ hkeep
      have hlen13 : (("978" ++ String.mk (cleanIsbn x).data.dropLast) ++
          toString ((10 - t % 10) % 10)).length = 13 := by
        show (("978" ++ String.mk (cleanIsbn x).data.dropLast) ++
          toString ((10 - t % 10) % 10)).data.length = 13
        rw [String.data_append, List.length_append, String.data_append,
          List.length_append, List.length_dropLast, hlen,
          toString_len_one _ hcheck]
        decide
      unfold normalize_isbn
      dsimp only
      rw [hcleanfix, if_neg (by rw [hlen13]; omega)]
  · rw [if_neg h10] at hxy
    simp only [Option.some.injEq] at hxy
    subst hxy
    have hclean2 : cleanIsbn (cleanIsbn x) = cleanIsbn x :=
      cleanIsbn_eq_self _ (fun a ha => List.of_mem_filter ha)
    unfold normalize_isbn
    dsimp only
    rw [hclean2, if_neg h10]

/-- C9 witness: the hyphenated ISBN-10 from the spec test list normalizes to
its ISBN-13 form 9783796519147, and normalizing that value reproduces it. -/
theorem C9_witness : normalize_isbn "9783796519147" = some "9783796519147" :=
  C9_main "3-7965-1914-4" "9783796519147" (by decide)

/-- C10: for every non-empty input, parse_einträge raises NameError before
producing any entry: the header of its loop evaluates the name lines, which
is bound neither in the local scope nor in the module globals nor in the
builtins, so the pipeline entry point can never obtain parsed entries. -/
theorem C10_main :
    ∀ zeilen : List String, zeilen ≠ [] →
      parse_eintraege zeilen = Except.error "NameError" := by
  intro zeilen _
  have h : resolvesInParseEintraege parseEintraegeLoopName = false := by decide
  simp [parse_eintraege, h]

/-- C10 witness: one concrete uploaded line is enough to hit the NameError. -/
theorem C10_witness :
    parse_eintraege ["Smith, Ein Titel [ISBN: 3796519144]"] = Except.error "NameError" :=
  C10_main ["Smith, Ein Titel [ISBN: 3796519144]"] (by decide)

